import Mathlib

/-!
Verification of the agentbeam core logic (shallow embedding).

Each Rust source function that the verified properties depend on is translated
into an executable Lean definition.  Filesystem and network effects are made
explicit: directory contents, session-log files and transport events become
ordinary inputs, and fallible operations return `Except`.  Strings are
manipulated through their character lists so that every definition evaluates
inside the kernel.
-/

namespace AgentBeam

/-! ### Character-list string primitives

Rust compares `String`s byte-lexicographically; on UTF-8 this coincides with
code-point order, which is what `charListLe` implements.  `strHasSub` and
`strStarts` model `str::contains` (substring pattern) and `str::starts_with`.
-/

/-- Lexicographic order on character lists (Rust `Ord` for `str`). -/
def charListLe : List Char → List Char → Bool
  | [], _ => true
  | _ :: _, [] => false
  | a :: as, b :: bs => if a = b then charListLe as bs else decide (a < b)

/-- Rust `a.cmp(&b) != Greater` for strings, i.e. `a <= b`. -/
def strLe (a b : String) : Bool := charListLe a.toList b.toList

/-- Does the character list contain `p` as a contiguous sublist? -/
def charsContain (p : List Char) : List Char → Bool
  | [] => p.isEmpty
  | c :: rest => p.isPrefixOf (c :: rest) || charsContain p rest

/-- Rust `str::contains` with a string pattern. -/
def strHasSub (s pat : String) : Bool := charsContain pat.toList s.toList

/-- Rust `str::starts_with` with a string pattern. -/
def strStarts (s pat : String) : Bool := pat.toList.isPrefixOf s.toList

/-- Rust `str::trim`: drop ASCII/Unicode whitespace from both ends. -/
def strTrim (s : String) : String :=
  (((s.toList.dropWhile Char.isWhitespace).reverse.dropWhile Char.isWhitespace).reverse).asString

/-! ### config.rs -/

/-- `TEMP_DIR_PREFIX` from src/core/config.rs: the reserved scratch-directory
name marker. -/
def tempDirMarker : String := ".agentbeam-"

/-- The fixed reserved name of the metadata entry appended by
`create_collection` (src/core/file_collector.rs line 138). -/
def metadataName : String := ".agentbeam-metadata.json"

/-- The fixed reserved relative path under which `add_to_collection`
(src/core/claude_session.rs line 69) injects a detected session log. -/
def sessionEntryName : String := ".agentbeam/claude-session.jsonl"

/-- `BeamMetadata` exactly as declared in src/core/config.rs lines 61-69.
Note: the declaration there has only these six fields; it has no
`claude_session` and no `git_context` field. -/
structure BeamMetadata where
  session_id : String
  workspace_name : String
  created_at : Nat
  beam_version : String
  total_size : Nat
  file_count : Nat
deriving Repr, DecidableEq

/-- Serialization of config.rs's `BeamMetadata` by serde: one key per declared
field, in declaration order.  Values are rendered abstractly as strings; only
the key set matters for the manifest-shape property. -/
def serializeBeamMetadata (m : BeamMetadata) : List (String × String) :=
  [("session_id", m.session_id),
   ("workspace_name", m.workspace_name),
   ("created_at", Nat.repr m.created_at),
   ("beam_version", m.beam_version),
   ("total_size", Nat.repr m.total_size),
   ("file_count", Nat.repr m.file_count)]

/-- The field names serde emits for config.rs's `BeamMetadata`. -/
def beamMetadataFields : List String :=
  ["session_id", "workspace_name", "created_at", "beam_version", "total_size", "file_count"]

/-! ### A first-order JSON model for session-log records

`copy_session_with_new_id` parses each line with serde, looks at the value as
an object, and touches only the top-level `"sessionId"` key.  The model keeps
exactly that structure: an object is an association list of keys to values,
where a value is a string or an opaque non-string payload; a parsed line that
is not an object is opaque as well. -/

/-- A top-level field value of a session record. -/
inductive JVal where
  | str (s : String)
  | other (tag : Nat)
deriving Repr, DecidableEq

/-- A parsed session-log line (`serde_json::Value`): either a JSON object or
some other JSON value, which `copy_session_with_new_id` passes through
unchanged. -/
inductive Json where
  | obj (fields : List (String × JVal))
  | nonObj (tag : Nat)
deriving Repr, DecidableEq

/-- First value bound to key `k` in an object's field list
(`serde_json::Map` lookup). -/
def getField (k : String) : List (String × JVal) → Option JVal
  | [] => none
  | f :: rest => if f.1 = k then some f.2 else getField k rest

/-- The `sessionId` field of a record, when the record is an object carrying
one. -/
def Json.sessionId? : Json → Option JVal
  | .obj fields => getField "sessionId" fields
  | .nonObj _ => none

/-- The body of the loop in `copy_session_with_new_id` (claude_session.rs
lines 266-273): if the value is an object containing key `sessionId`, replace
that binding with the new id; otherwise leave the value unchanged. -/
def updateSessionId (newId : String) : Json → Json
  | .obj fields =>
    if fields.any (fun f => f.1 = "sessionId") then
      .obj (fields.map (fun f => if f.1 = "sessionId" then (f.1, JVal.str newId) else f))
    else .obj fields
  | .nonObj t => .nonObj t

/-- Rendering of a field value (`serde_json::to_string`); non-string payloads
are rendered from their opaque tag. -/
def JVal.render : JVal → String
  | .str s => "\"" ++ s ++ "\""
  | .other t => Nat.repr t

/-- Rendering of a record (`serde_json::to_string`).  Serialized records never
contain a newline character, so joining them with single newlines gives one
line per record. -/
def Json.render : Json → String
  | .obj fields =>
    "\x7b" ++ String.intercalate "," (fields.map (fun f => "\"" ++ f.1 ++ "\":" ++ f.2.render)) ++ "\x7d"
  | .nonObj t => Nat.repr t

/-! ### Session-log files -/

/-- One line of a session-log file, classified the way the loop in
`copy_session_with_new_id` sees it: `blank` is a line whose trimmed content is
empty (`line.trim().is_empty()`), `record v` a non-blank line that serde
parses to the value `v`, and `malformed s` a non-blank line `s` that fails to
parse. -/
inductive LogLine where
  | blank (ws : String)
  | record (v : Json)
  | malformed (s : String)
deriving Repr, DecidableEq

/-- Is the line skipped by the `line.trim().is_empty()` test? -/
def LogLine.isBlank : LogLine → Bool
  | .blank _ => true
  | _ => false

/-- Is the line a parseable record? -/
def LogLine.isRecord : LogLine → Bool
  | .record _ => true
  | _ => false

/-- Does the line make the copy fail? -/
def LogLine.isMalformed : LogLine → Bool
  | .malformed _ => true
  | _ => false

/-- The parsed value of a record line. -/
def LogLine.record? : LogLine → Option Json
  | .record v => some v
  | _ => none

/-- The per-line loop of `copy_session_with_new_id` (claude_session.rs lines
257-276): blank lines are skipped, a parse failure aborts with the line's
error context, and every parsed record is rewritten with `updateSessionId`
and collected in order. -/
def processLines (newId : String) : List LogLine → Except String (List Json)
  | [] => .ok []
  | .blank _ :: rest => processLines newId rest
  | .malformed s :: _ => .error ("Failed to parse session line: " ++ s)
  | .record v :: rest =>
    match processLines newId rest with
    | .error e => .error e
    | .ok out => .ok (updateSessionId newId v :: out)

/-- `copy_session_with_new_id` (claude_session.rs lines 249-280): process all
lines, then write the serialized records joined by single newlines with no
trailing newline (`output.join("\n")`).  The returned string is the content
written to the destination file. -/
def copySessionWithNewId (newId : String) (lines : List LogLine) : Except String String :=
  (processLines newId lines).map (fun out => String.intercalate "\n" (out.map Json.render))

/-! ### claude_session.rs detection -/

/-- `path_to_slug` (claude_session.rs lines 168-173): replace every `/` by
`-`. -/
def path_to_slug (p : String) : String :=
  String.map (fun c => if c = '/' then '-' else c) p

/-- The most recently modified `.jsonl` file found by `find_latest_session`,
abstracted to its path, its filename stem and its content split into lines
(the directory scan and modification-time sort are filesystem effects). -/
structure SessionFileInfo where
  path : String
  stem : String
  lines : List LogLine
deriving Repr, DecidableEq

/-- `ClaudeSession` from claude_session.rs lines 10-16; `entry_count` is the
line count of the session file. -/
structure ClaudeSession where
  session_file : String
  session_id : String
  project_slug : String
  entry_count : Nat
deriving Repr, DecidableEq

/-- `ClaudeContext` from claude_session.rs lines 18-24. -/
structure ClaudeContext where
  session : Option ClaudeSession
  git_branch : String
  git_has_changes : Bool
  git_remote_url : Option String
deriving Repr, DecidableEq

/-- `detect_session` (claude_session.rs lines 129-165): if the per-user
project directory for the workspace slug is absent, no session; otherwise take
the latest `.jsonl` file, use its filename stem as the session id and its line
count (`content.lines().count()`) as the entry count. -/
def detect_session (workspace : String) (dirExists : Bool)
    (latest : Option SessionFileInfo) : Option ClaudeSession :=
  if !dirExists then none
  else
    match latest with
    | none => none
    | some f =>
      some { session_file := f.path, session_id := f.stem,
             project_slug := path_to_slug workspace, entry_count := f.lines.length }

/-- `add_to_collection` (claude_session.rs lines 66-73): when a session was
detected, push the reserved session entry at the end of the manifest. -/
def add_to_collection (ctx : ClaudeContext) (files : List (String × String)) :
    List (String × String) :=
  match ctx.session with
  | some s => files ++ [(sessionEntryName, s.session_file)]
  | none => files

/-! ### claude_session.rs restore -/

/-- The receiver's per-user session directory, as a map from file names to
file contents. -/
def DirMap := String → Option String

/-- The id-selection step of `restore` (claude_session.rs lines 96-112): if a
log already exists under the original session id, append the fixed
`-agentbeam` suffix; otherwise use the freshly generated random id. -/
def chooseNewId (dir : DirMap) (origId uuid : String) : String :=
  if (dir (origId ++ ".jsonl")).isSome then origId ++ "-agentbeam" else uuid

/-- Result of a successful `restore`: the chosen id and the updated directory
contents. -/
structure RestoreOutcome where
  newId : String
  dir : DirMap

/-- `restore` (claude_session.rs lines 76-126): choose the new session id,
copy the session file rewriting embedded ids, and write the result under
`newId.jsonl`.  A copy failure propagates and nothing is written. -/
def restore (dir : DirMap) (origId uuid : String) (srcLines : List LogLine) :
    Except String RestoreOutcome :=
  let newId := chooseNewId dir origId uuid
  match copySessionWithNewId newId srcLines with
  | .error e => .error e
  | .ok content =>
    .ok { newId := newId,
          dir := fun n => if n = newId ++ ".jsonl" then some content else dir n }

/-! ### claude_session.rs git state and commands.rs git initialization -/

/-- The captured output of a completed external command
(`std::process::Output`): exit-status success flag and stdout. -/
structure CmdOutput where
  success : Bool
  stdout : String
deriving Repr, DecidableEq

/-- The capability of running the external `git` tool with given arguments.
`.error` models `Command::output` itself failing (the git binary is
unavailable); `.ok` a command that ran to completion, successfully or not. -/
def GitRunner := List String → Except String CmdOutput

/-- `get_git_state` (claude_session.rs lines 204-246).  A workspace without a
`.git` directory yields the defaults.  Otherwise the branch and status
commands are run with `?` on `output()` — a spawn failure propagates — while
the remote lookup uses `.ok()` and tolerates every failure. -/
def get_git_state (hasGitDir : Bool) (run : GitRunner) :
    Except String (String × Bool × Option String) :=
  if !hasGitDir then .ok ("main", false, none)
  else
    match run ["branch", "--show-current"] with
    | .error e => .error e
    | .ok branchOut =>
      let branch := if branchOut.success then strTrim branchOut.stdout else "main"
      match run ["status", "--porcelain"] with
      | .error e => .error e
      | .ok statusOut =>
        let hasChanges := !(statusOut.stdout = "")
        let remoteUrl : Option String :=
          match run ["remote", "get-url", "origin"] with
          | .error _ => none
          | .ok o => if o.success then some (strTrim o.stdout) else none
        .ok (branch, hasChanges, remoteUrl)

/-- The git-initialization step of `receive_session` (commands.rs lines
367-388): when the manifest carries git context and the target has no `.git`
directory, run `git init` and, if the recorded branch is neither `main` nor
`master`, `git checkout -b branch`; both calls use `?` on `output()`, so a
spawn failure propagates. -/
def initGitOnReceive (targetHasGitDir : Bool) (branch : String) (run : GitRunner) :
    Except String Unit :=
  if targetHasGitDir then .ok ()
  else
    match run ["init"] with
    | .error e => .error e
    | .ok _ =>
      if branch ≠ "main" ∧ branch ≠ "master" then
        match run ["checkout", "-b", branch] with
        | .error e => .error e
        | .ok _ => .ok ()
      else .ok ()

/-! ### file_collector.rs -/

/-- The exclusion test of `collect_files` (file_collector.rs line 48): the
relative path starts with `.agentbeam-` or contains `/.agentbeam-`. -/
def isAgentbeamTemp (rel : String) : Bool :=
  strStarts rel ".agentbeam-" || strHasSub rel "/.agentbeam-"

/-- `collect_files` (file_collector.rs lines 24-59).  The ignore-rule-aware
directory walk is a filesystem effect, so its yield — the `(relative path,
absolute path)` pairs of the regular files that survived the ignore rules — is
the input.  The function then drops everything under the scratch-directory
marker and sorts by relative path (`files.sort_by(|a, b| a.0.cmp(&b.0))`,
modelled by the stable `mergeSort`). -/
def collect_files (entries : List (String × String)) : List (String × String) :=
  (entries.filter (fun e => !isAgentbeamTemp e.1)).mergeSort (fun a b => strLe a.1 b.1)

/-- `create_collection` (file_collector.rs lines 61-148), restricted to the
collection it assembles: every manifest entry is imported in order and paired
with its content hash (the store's import is the abstract `hashOf`), then the
reserved metadata entry is appended last.  No name is checked or
deduplicated. -/
def create_collection (hashOf : String → Nat) (metadataHash : Nat)
    (files : List (String × String)) : List (String × Nat) :=
  (files.map (fun f => (f.1, hashOf f.2))) ++ [(metadataName, metadataHash)]

/-! ### provider_monitor.rs -/

/-- The transport lifecycle events consumed by `monitor_until_complete`
(`iroh_blobs::provider::Event`), with payloads reduced to what the monitor
reads. -/
inductive PEvent where
  | clientConnected (nodeId : Nat)
  | getRequestReceived (requestId : Nat)
  | transferStarted (requestId : Nat) (size : Nat)
  | transferProgress (requestId : Nat) (endOffset : Nat)
  | transferCompleted (requestId : Nat)
  | transferAborted (requestId : Nat)
  | connectionClosed (connectionId : Nat)
  | otherEvent (tag : Nat)
deriving Repr, DecidableEq

/-- Is the event a connection-accepted event? -/
def PEvent.isConnect : PEvent → Bool
  | .clientConnected _ => true
  | _ => false

/-- Is the event a connection-closed event? -/
def PEvent.isClose : PEvent → Bool
  | .connectionClosed _ => true
  | _ => false

/-- How `monitor_until_complete` returned: `connClosed remaining` for the
early `return Ok(())` on a connection-closed event (the unread queue is
`remaining`), `queueClosed` for the final `Ok(())` when the event queue
closes.  Both are successful terminations. -/
inductive MonitorOutcome where
  | connClosed (remaining : List PEvent)
  | queueClosed
deriving Repr, DecidableEq

/-- `HashSet::insert` on the set of active transfer ids. -/
def insertReq (id : Nat) (s : List Nat) : List Nat :=
  if id ∈ s then s else id :: s

/-- `HashSet::remove` on the set of active transfer ids. -/
def removeReq (id : Nat) (s : List Nat) : List Nat :=
  s.filter (fun x => x ≠ id)

/-- The event loop of `monitor_until_complete` (provider_monitor.rs lines
21-146).  State: the `connected` flag and the `active_transfers` set (progress
bars are a presentation side-channel and carry no control flow).  A
connection-closed event returns early only when `connected` is set; every
other event — including transfer-completed — continues the loop; queue
closure ends the loop successfully. -/
def monitorLoop : Bool → List Nat → List PEvent → MonitorOutcome
  | _, _, [] => .queueClosed
  | _, active, .clientConnected _ :: rest => monitorLoop true active rest
  | connected, active, .getRequestReceived _ :: rest => monitorLoop connected active rest
  | connected, active, .transferStarted id _ :: rest =>
    monitorLoop connected (insertReq id active) rest
  | connected, active, .transferProgress _ _ :: rest => monitorLoop connected active rest
  | connected, active, .transferCompleted id :: rest =>
    monitorLoop connected (removeReq id active) rest
  | connected, active, .transferAborted id :: rest =>
    monitorLoop connected (removeReq id active) rest
  | connected, active, .connectionClosed _ :: rest =>
    if connected then .connClosed rest else monitorLoop connected active rest
  | connected, active, .otherEvent _ :: rest => monitorLoop connected active rest

/-- `monitor_until_complete` starts disconnected with no active transfers. -/
def monitor_until_complete (events : List PEvent) : MonitorOutcome :=
  monitorLoop false [] events

/-! ### cleanup.rs -/

/-- `TempDirGuard` (cleanup.rs lines 6-9); the atomic flag is a plain Bool in
this single-flow model. -/
structure TempDirGuard where
  path : String
  should_cleanup : Bool
deriving Repr, DecidableEq

/-- `TempDirGuard::new`: cleanup enabled. -/
def TempDirGuard.mkNew (path : String) : TempDirGuard :=
  { path := path, should_cleanup := true }

/-- `cancel_cleanup` (cleanup.rs lines 19-21). -/
def cancel_cleanup (g : TempDirGuard) : TempDirGuard :=
  { g with should_cleanup := false }

/-- The filesystem as the directory entries that exist, each tagged with
whether removing it can succeed (`false` models e.g. a permission failure). -/
def FsDirs := List (String × Bool)

/-- `std::fs::remove_dir_all`: fails when the target does not exist or cannot
be removed; on success the target and everything below it are gone. -/
def removeDirAll (fs : FsDirs) (path : String) : Except String FsDirs :=
  match (fs : List (String × Bool)).find? (fun d => d.1 = path) with
  | none => .error "No such file or directory"
  | some d =>
    if d.2 then
      .ok (((fs : List (String × Bool))).filter
        (fun e => !(e.1 = path || strStarts e.1 (path ++ "/"))))
    else .error "Permission denied"

/-- The `Drop` implementation for `TempDirGuard` (cleanup.rs lines 28-44) as a
total function: it cannot raise.  When cleanup was cancelled it returns at
once; otherwise it attempts removal, and on failure emits a warning log only
when the directory still exists.  The returned pair is the filesystem after
the drop and the emitted log lines. -/
def dropGuard (g : TempDirGuard) (fs : FsDirs) : FsDirs × List String :=
  if !g.should_cleanup then (fs, [])
  else
    match removeDirAll fs g.path with
    | .ok fs2 => (fs2, [])
    | .error e =>
      if ((fs : List (String × Bool)).any (fun d => d.1 = g.path)) then
        (fs, ["Failed to cleanup temporary directory " ++ g.path ++ ": " ++ e])
      else (fs, [])

end AgentBeam

namespace AgentBeam

/-! ### Helper lemmas -/

theorem charListLe_total : ∀ a b, charListLe a b || charListLe b a
  | [], _ => by simp [charListLe]
  | _ :: _, [] => by simp [charListLe]
  | a :: as, b :: bs => by
    simp only [charListLe]
    rcases eq_or_ne a b with h | h
    · subst h
      simpa using charListLe_total as bs
    · simp only [if_neg h, if_neg (Ne.symm h)]
      rcases lt_or_gt_of_ne h with hl | hl
      · simp [hl]
      · simp [hl, not_lt_of_gt hl]

theorem charListLe_trans : ∀ a b c, charListLe a b → charListLe b c → charListLe a c
  | [], _, _ => by simp [charListLe]
  | _ :: _, [], _ => by simp [charListLe]
  | _ :: _, _ :: _, [] => by simp [charListLe]
  | a :: as, b :: bs, c :: cs => by
    simp only [charListLe]
    rcases eq_or_ne a b with hab | hab
    · subst hab
      rcases eq_or_ne a c with hac | hac
      · subst hac; simpa using charListLe_trans as _ cs
      · simp [hac]
    · rcases eq_or_ne b c with hbc | hbc
      · subst hbc; simp only [if_neg hab]; exact fun h _ => h
      · rcases eq_or_ne a c with hac | hac
        · subst hac
          simp only [if_neg hab, if_neg hbc, if_pos rfl]
          intro h1 h2
          exact absurd (lt_trans (of_decide_eq_true h1) (of_decide_eq_true h2)) (lt_irrefl a)
        · simp only [if_neg hab, if_neg hbc, if_neg hac, decide_eq_true_eq]
          exact fun h1 h2 => lt_trans h1 h2

theorem strLe_entry_total (a b : String × String) :
    strLe a.1 b.1 || strLe b.1 a.1 := charListLe_total _ _

theorem strLe_entry_trans (a b c : String × String) :
    strLe a.1 b.1 → strLe b.1 c.1 → strLe a.1 c.1 := charListLe_trans _ _ _

theorem str_append_right_cancel {a b c : String} (h : a ++ b = a ++ c) : b = c := by
  have hd := congrArg String.data h
  simp only [String.data_append] at hd
  exact String.ext (List.append_cancel_left hd)

theorem str_append_suffix_ne {a b : String} (hb : b ≠ "") : a ++ b ≠ a := by
  intro h
  apply hb
  have : a ++ b = a ++ "" := by
    rw [h]
    exact (String.append_empty a).symm
  exact str_append_right_cancel this

theorem create_collection_names (hashOf : String → Nat) (metadataHash : Nat)
    (files : List (String × String)) :
    (create_collection hashOf metadataHash files).map Prod.fst =
      files.map Prod.fst ++ [metadataName] := by
  simp [create_collection, Function.comp]

/-! ### C7: scratch-directory exclusion invariant -/

/-- C7 (confirmed).  For all paths under the scratch-directory name marker
`.agentbeam-` — at the root or nested at any depth — the path is never present
in a manifest produced by `collect_files`, whatever files the ignore-rule walk
yields: every produced entry fails the `isAgentbeamTemp` test, and conversely
any entry passing it is absent from the output. -/
theorem C7_exclusion_invariant (entries : List (String × String)) :
    ((collect_files entries).all (fun e => !isAgentbeamTemp e.1) = true) ∧
    ∀ p : String × String, isAgentbeamTemp p.1 = true → p ∉ collect_files entries := by
  have hall : (collect_files entries).all (fun e => !isAgentbeamTemp e.1) = true := by
    rw [List.all_eq_true]
    intro x hx
    simp only [collect_files, List.mem_mergeSort, List.mem_filter] at hx
    simpa using hx.2
  refine ⟨hall, ?_⟩
  intro p hp hmem
  have := List.all_eq_true.mp hall p hmem
  simp [hp] at this

/-- C7 witness: a root-level scratch path and a nested one are excluded even
from a walk that yields them, while an ordinary file stays. -/
theorem C7_witness :
    (".agentbeam-abc123/x", "/w/.agentbeam-abc123/x") ∉
      collect_files [("src/main.txt", "/w/src/main.txt"),
                     (".agentbeam-abc123/x", "/w/.agentbeam-abc123/x"),
                     ("a/b/.agentbeam-tmp/y", "/w/a/b/.agentbeam-tmp/y")] ∧
    ("a/b/.agentbeam-tmp/y", "/w/a/b/.agentbeam-tmp/y") ∉
      collect_files [("src/main.txt", "/w/src/main.txt"),
                     (".agentbeam-abc123/x", "/w/.agentbeam-abc123/x"),
                     ("a/b/.agentbeam-tmp/y", "/w/a/b/.agentbeam-tmp/y")] := by
  constructor
  · exact (C7_exclusion_invariant _).2 _ (by decide)
  · exact (C7_exclusion_invariant _).2 _ (by decide)

/-! ### C8: manifest ordering -/

/-- C8 counterexample.  The manifest actually handed to the builder when a
session log has been attached is not sorted: the reserved session entry is
pushed after sorting, and `.agentbeam/claude-session.jsonl` orders before
`src/main.rs`. -/
theorem C8_cx_session_append_unsorted :
    ¬ List.Pairwise (fun a b : String × String => strLe a.1 b.1 = true)
      (add_to_collection
        { session := some { session_file := "/h/.claude/projects/-w/abc.jsonl",
                            session_id := "abc", project_slug := "-w", entry_count := 2 },
          git_branch := "main", git_has_changes := false, git_remote_url := none }
        [("src/main.rs", "/w/src/main.rs")]) := by
  decide

/-- C8 (corrected).  `collect_files` output is sorted lexicographically by
relative path (and, being a function of the walk's yield, deterministic);
attaching a detected session appends the reserved entry after the sort, so the
transmitted manifest is the sorted file list followed by the session entry —
in general no longer sorted. -/
theorem C8_manifest_order_amended (entries files : List (String × String))
    (s : ClaudeSession) (gb : String) (gc : Bool) (gr : Option String) :
    (collect_files entries).Pairwise (fun a b => strLe a.1 b.1) ∧
    add_to_collection { session := some s, git_branch := gb, git_has_changes := gc,
                        git_remote_url := gr } files
      = files ++ [(sessionEntryName, s.session_file)] ∧
    add_to_collection { session := none, git_branch := gb, git_has_changes := gc,
                        git_remote_url := gr } files = files := by
  refine ⟨?_, rfl, rfl⟩
  simp only [collect_files]
  exact List.sorted_mergeSort strLe_entry_trans strLe_entry_total _

/-! ### C1: collection name uniqueness and metadata placement -/

/-- C1 counterexample.  `create_collection` deduplicates nothing: a workspace
that itself contains a file at the reserved relative path
`.agentbeam/claude-session.jsonl` (which `collect_files` does not exclude,
since `.agentbeam/` does not match the `.agentbeam-` marker) collides with the
attached session entry, and the built collection repeats that name. -/
theorem C1_cx_duplicate_names :
    ¬ ((create_collection (fun _ => 0) 0
        (add_to_collection
          { session := some { session_file := "/h/.claude/projects/-w/abc.jsonl",
                              session_id := "abc", project_slug := "-w", entry_count := 2 },
            git_branch := "main", git_has_changes := false, git_remote_url := none }
          [(".agentbeam/claude-session.jsonl", "/w/.agentbeam/claude-session.jsonl")])).map
        Prod.fst).Nodup := by
  decide

/-- C1 (corrected).  The metadata entry is always last, unconditionally; the
entry names of the built collection are pairwise distinct provided the input
manifest's names are pairwise distinct and do not use the reserved metadata
name — and likewise after a detected session log is attached, provided the
manifest also avoids the reserved session path. -/
theorem C1_collection_unique_amended (hashOf : String → Nat) (metadataHash : Nat)
    (files : List (String × String)) :
    ((create_collection hashOf metadataHash files).getLast? = some (metadataName, metadataHash)) ∧
    ((files.map Prod.fst).Nodup → metadataName ∉ files.map Prod.fst →
      ((create_collection hashOf metadataHash files).map Prod.fst).Nodup) ∧
    (∀ ctx : ClaudeContext, ∀ s : ClaudeSession, ctx.session = some s →
      (files.map Prod.fst).Nodup → sessionEntryName ∉ files.map Prod.fst →
      metadataName ∉ files.map Prod.fst →
      ((create_collection hashOf metadataHash (add_to_collection ctx files)).map Prod.fst).Nodup) := by
  refine ⟨?_, ?_, ?_⟩
  · simp [create_collection]
  · intro hnd hmeta
    rw [create_collection_names]
    simp [List.nodup_append, hnd, hmeta]
  · intro ctx s hctx hnd hsess hmeta
    have hadd : add_to_collection ctx files = files ++ [(sessionEntryName, s.session_file)] := by
      simp [add_to_collection, hctx]
    rw [hadd, create_collection_names]
    have hne : metadataName ≠ sessionEntryName := by decide
    simp [List.nodup_append, hnd, hsess, hmeta, hne, Ne.symm hne]

/-- C1 witness: a concrete two-file manifest with a session attached builds a
collection with distinct names and the metadata entry last. -/
theorem C1_witness :
    ((create_collection (fun _ => 7) 3 [("a.txt", "/w/a.txt"), ("b.txt", "/w/b.txt")]).getLast?
      = some (metadataName, 3)) ∧
    ((create_collection (fun _ => 7) 3
        (add_to_collection
          { session := some { session_file := "/h/s.jsonl", session_id := "s",
                              project_slug := "-w", entry_count := 1 },
            git_branch := "main", git_has_changes := false, git_remote_url := none }
          [("a.txt", "/w/a.txt"), ("b.txt", "/w/b.txt")])).map Prod.fst).Nodup := by
  constructor
  · exact (C1_collection_unique_amended (fun _ => 7) 3 _).1
  · exact (C1_collection_unique_amended (fun _ => 7) 3 _).2.2 _ _ rfl
      (by decide) (by decide) (by decide)

/-! ### Session-log copy lemmas -/

theorem processLines_skip_blank (newId : String) :
    ∀ lines : List LogLine,
      processLines newId lines = processLines newId (lines.filter (fun l => !l.isBlank))
  | [] => rfl
  | .blank s :: rest => by
    rw [List.filter_cons_of_neg (by simp [LogLine.isBlank])]
    exact processLines_skip_blank newId rest
  | .malformed s :: rest => by
    rw [List.filter_cons_of_pos (by simp [LogLine.isBlank])]
    rfl
  | .record v :: rest => by
    rw [List.filter_cons_of_pos (by simp [LogLine.isBlank])]
    simp only [processLines]
    rw [processLines_skip_blank newId rest]

theorem processLines_all_records (newId : String) :
    ∀ lines : List LogLine, (∀ l ∈ lines, l.isRecord = true) →
      processLines newId lines =
        .ok ((lines.filterMap LogLine.record?).map (updateSessionId newId))
  | [] => fun _ => rfl
  | .blank s :: rest => by
    intro h
    exact absurd (h _ (List.mem_cons_self _ _)) (by simp [LogLine.isRecord])
  | .malformed s :: rest => by
    intro h
    exact absurd (h _ (List.mem_cons_self _ _)) (by simp [LogLine.isRecord])
  | .record v :: rest => by
    intro h
    have ih := processLines_all_records newId rest (fun l hl => h l (List.mem_cons_of_mem _ hl))
    simp only [processLines, ih, List.filterMap_cons, LogLine.record?, List.map_cons]

theorem length_filterMap_records :
    ∀ lines : List LogLine, (∀ l ∈ lines, l.isRecord = true) →
      (lines.filterMap LogLine.record?).length = lines.length
  | [] => fun _ => rfl
  | .blank s :: rest => fun h =>
    absurd (h _ (List.mem_cons_self _ _)) (by simp [LogLine.isRecord])
  | .malformed s :: rest => fun h =>
    absurd (h _ (List.mem_cons_self _ _)) (by simp [LogLine.isRecord])
  | .record v :: rest => by
    intro h
    have ih := length_filterMap_records rest (fun l hl => h l (List.mem_cons_of_mem _ hl))
    simp only [List.filterMap_cons, LogLine.record?, List.length_cons, ih]

theorem filtered_no_malformed_records (lines : List LogLine)
    (h : ∀ l ∈ lines, l.isMalformed = false) :
    ∀ l ∈ lines.filter (fun l => !l.isBlank), l.isRecord = true := by
  intro l hl
  have hmem := List.mem_filter.mp hl
  have hm := h l hmem.1
  have hb := hmem.2
  cases l with
  | blank s => simp [LogLine.isBlank] at hb
  | record v => rfl
  | malformed s => simp [LogLine.isMalformed] at hm

theorem processLines_no_malformed (newId : String) (lines : List LogLine)
    (h : ∀ l ∈ lines, l.isMalformed = false) :
    processLines newId lines =
      .ok (((lines.filter (fun l => !l.isBlank)).filterMap LogLine.record?).map
            (updateSessionId newId)) := by
  rw [processLines_skip_blank]
  exact processLines_all_records newId _ (filtered_no_malformed_records lines h)

theorem getField_map_update (newId : String) :
    ∀ fields : List (String × JVal), ∀ j,
      getField "sessionId"
          (fields.map (fun f => if f.1 = "sessionId" then (f.1, JVal.str newId) else f))
        = some j →
      j = .str newId
  | [], j => by simp [getField]
  | f :: rest, j => by
    by_cases hf : f.1 = "sessionId"
    · simp only [List.map_cons, if_pos hf, getField, if_pos hf]
      intro h
      exact (Option.some_injective _ h).symm
    · simp only [List.map_cons, if_neg hf, getField, if_neg hf]
      exact getField_map_update newId rest j

theorem getField_none_of_any_false (k : String) :
    ∀ fields : List (String × JVal), (fields.any (fun f => f.1 = k)) = false →
      getField k fields = none
  | [] => fun _ => rfl
  | f :: rest => by
    intro h
    simp only [List.any_cons, Bool.or_eq_false_iff, decide_eq_false_iff_not] at h
    simp only [getField, if_neg h.1]
    exact getField_none_of_any_false k rest (by simpa using h.2)

theorem sessionId_update (newId : String) (v : Json) :
    ∀ j, (updateSessionId newId v).sessionId? = some j → j = .str newId := by
  cases v with
  | nonObj t => simp [updateSessionId, Json.sessionId?]
  | obj fields =>
    intro j
    cases hany : fields.any (fun f => f.1 = "sessionId") with
    | true =>
      simp only [updateSessionId, hany, if_true, Json.sessionId?]
      exact getField_map_update newId fields j
    | false =>
      simp only [updateSessionId, hany, Bool.false_eq_true, if_false, Json.sessionId?]
      rw [getField_none_of_any_false _ _ hany]
      intro h
      exact absurd h (by simp)

/-! ### C10: blank-line handling in the session copy -/

/-- C10 (confirmed).  `copy_session_with_new_id` silently skips empty and
whitespace-only lines (processing a log equals processing its non-blank
lines), and for a log with no malformed line it writes exactly the remaining
records, rewritten and re-serialized, joined by single newlines with no
trailing newline; the number of written records equals the number of
non-blank source lines, not the source's total line count. -/
theorem C10_skip_blank_lines (newId : String) (lines : List LogLine) :
    (processLines newId lines = processLines newId (lines.filter (fun l => !l.isBlank))) ∧
    ((∀ l ∈ lines, l.isMalformed = false) →
      ∃ out, processLines newId lines = .ok out ∧
        out = ((lines.filter (fun l => !l.isBlank)).filterMap LogLine.record?).map
                (updateSessionId newId) ∧
        out.length = (lines.filter (fun l => !l.isBlank)).length ∧
        copySessionWithNewId newId lines =
          .ok (String.intercalate "\n" (out.map Json.render))) := by
  refine ⟨processLines_skip_blank newId lines, ?_⟩
  intro h
  refine ⟨_, processLines_no_malformed newId lines h, rfl, ?_, ?_⟩
  · rw [List.length_map]
    exact length_filterMap_records _ (filtered_no_malformed_records lines h)
  · simp only [copySessionWithNewId, processLines_no_malformed newId lines h, Except.map]

/-- C10 witness: a log of two records around a whitespace-only line yields
exactly the two rewritten records joined by one newline. -/
theorem C10_witness :
    ∃ out, processLines "new"
        [LogLine.record (Json.obj [("sessionId", JVal.str "old")]),
         LogLine.blank "   ",
         LogLine.record (Json.nonObj 5)] = .ok out ∧
      out = (([LogLine.record (Json.obj [("sessionId", JVal.str "old")]),
               LogLine.blank "   ",
               LogLine.record (Json.nonObj 5)].filter
                (fun l => !l.isBlank)).filterMap LogLine.record?).map (updateSessionId "new") ∧
      out.length = ([LogLine.record (Json.obj [("sessionId", JVal.str "old")]),
                     LogLine.blank "   ",
                     LogLine.record (Json.nonObj 5)].filter (fun l => !l.isBlank)).length ∧
      copySessionWithNewId "new"
          [LogLine.record (Json.obj [("sessionId", JVal.str "old")]),
           LogLine.blank "   ",
           LogLine.record (Json.nonObj 5)] =
        .ok (String.intercalate "\n" (out.map Json.render)) :=
  (C10_skip_blank_lines "new" _).2 (by decide)

/-! ### Restore lemmas -/

theorem jsonl_suffix_ne (a : String) :
    a ++ ".jsonl" ≠ (a ++ "-agentbeam") ++ ".jsonl" := by
  intro h
  have hd := congrArg String.data h
  simp only [String.data_append, List.append_assoc] at hd
  have h2 := List.append_cancel_left hd
  exact absurd h2 (by decide)

theorem chooseNewId_ne (dir : DirMap) (origId uuid : String) (huuid : uuid ≠ origId) :
    chooseNewId dir origId uuid ≠ origId := by
  unfold chooseNewId
  split
  · exact str_append_suffix_ne (by decide)
  · exact huuid

theorem restore_ok (dir : DirMap) (origId uuid : String) (lines : List LogLine)
    (hp : ∀ l ∈ lines, l.isMalformed = false) :
    ∃ c, restore dir origId uuid lines = .ok
      { newId := chooseNewId dir origId uuid,
        dir := fun n => if n = chooseNewId dir origId uuid ++ ".jsonl"
                        then some c else dir n } := by
  have hc : copySessionWithNewId (chooseNewId dir origId uuid) lines =
      .ok (String.intercalate "\n"
        ((((lines.filter (fun l => !l.isBlank)).filterMap LogLine.record?).map
          (updateSessionId (chooseNewId dir origId uuid))).map Json.render)) := by
    simp only [copySessionWithNewId, processLines_no_malformed _ lines hp, Except.map]
  refine ⟨String.intercalate "\n"
    ((((lines.filter (fun l => !l.isBlank)).filterMap LogLine.record?).map
      (updateSessionId (chooseNewId dir origId uuid))).map Json.render), ?_⟩
  simp only [restore, hc]

/-! ### C5: collision safety on restore -/

/-- C5 (confirmed).  When a log already exists at the receiver under the
original session id, `restore` writes under the original id extended by
exactly the fixed `-agentbeam` suffix, the pre-existing file is untouched, and
the new file exists alongside it; when no such log exists, the freshly
generated random id is used instead. -/
theorem C5_collision_safety (dir : DirMap) (origId uuid : String) (lines : List LogLine)
    (hp : ∀ l ∈ lines, l.isMalformed = false) :
    ((dir (origId ++ ".jsonl")).isSome = true →
      ∃ r, restore dir origId uuid lines = .ok r ∧
        r.newId = origId ++ "-agentbeam" ∧
        r.newId ≠ origId ∧
        r.dir (origId ++ ".jsonl") = dir (origId ++ ".jsonl") ∧
        (r.dir ((origId ++ "-agentbeam") ++ ".jsonl")).isSome = true) ∧
    (dir (origId ++ ".jsonl") = none →
      ∃ r, restore dir origId uuid lines = .ok r ∧ r.newId = uuid) := by
  obtain ⟨c, hr⟩ := restore_ok dir origId uuid lines hp
  constructor
  · intro hex
    have hid : chooseNewId dir origId uuid = origId ++ "-agentbeam" := by
      unfold chooseNewId
      rw [if_pos hex]
    refine ⟨_, hr, hid, ?_, ?_, ?_⟩
    · rw [hid]
      exact str_append_suffix_ne (by decide)
    · show (if origId ++ ".jsonl" = chooseNewId dir origId uuid ++ ".jsonl"
            then some c else dir (origId ++ ".jsonl")) = dir (origId ++ ".jsonl")
      rw [hid, if_neg (jsonl_suffix_ne origId)]
    · show (if (origId ++ "-agentbeam") ++ ".jsonl" = chooseNewId dir origId uuid ++ ".jsonl"
            then some c else dir ((origId ++ "-agentbeam") ++ ".jsonl")).isSome = true
      rw [hid, if_pos rfl]
      rfl
  · intro hnone
    have hid : chooseNewId dir origId uuid = uuid := by
      unfold chooseNewId
      rw [if_neg (by simp [hnone])]
    exact ⟨_, hr, hid⟩

/-- C5 witness: with `orig.jsonl` already present the restore writes
`orig-agentbeam.jsonl` and leaves the old file intact; with an empty directory
the fresh id `u` is used. -/
theorem C5_witness :
    (∃ r, restore (fun n => if n = "orig.jsonl" then some "old" else none) "orig" "u"
        [LogLine.record (Json.obj [("sessionId", JVal.str "orig")])] = .ok r ∧
      r.newId = "orig" ++ "-agentbeam" ∧
      r.newId ≠ "orig" ∧
      r.dir ("orig" ++ ".jsonl") =
        (fun n => if n = "orig.jsonl" then some "old" else none) ("orig" ++ ".jsonl") ∧
      (r.dir (("orig" ++ "-agentbeam") ++ ".jsonl")).isSome = true) ∧
    (∃ r, restore (fun _ => none) "orig" "u"
        [LogLine.record (Json.obj [("sessionId", JVal.str "orig")])] = .ok r ∧
      r.newId = "u") := by
  constructor
  · exact (C5_collision_safety (fun n => if n = "orig.jsonl" then some "old" else none)
      "orig" "u" _ (by decide)).1 (by decide)
  · exact (C5_collision_safety (fun _ => none) "orig" "u" _ (by decide)).2 rfl

/-! ### C2: round-trip of detect and restore -/

/-- C2 counterexample.  `detect_session` counts every line of the log
(`content.lines().count()`), but the copy skips whitespace-only lines: a
two-line log containing one blank line is detected with 2 entries while the
restored file holds a single record — the claim's count preservation fails as
stated. -/
theorem C2_cx_blank_line :
    (detect_session "/w" true
        (some { path := "/h/orig.jsonl", stem := "orig",
                lines := [LogLine.record (Json.obj [("sessionId", JVal.str "orig")]),
                          LogLine.blank " "] })).map ClaudeSession.entry_count = some 2 ∧
    processLines "u" [LogLine.record (Json.obj [("sessionId", JVal.str "orig")]),
                      LogLine.blank " "]
      = .ok [Json.obj [("sessionId", JVal.str "u")]] ∧
    ([Json.obj [("sessionId", JVal.str "u")]] : List Json).length = 1 ∧ (1 : Nat) ≠ 2 :=
  ⟨rfl, rfl, rfl, by decide⟩

/-- C2 (corrected).  For a detected session whose log consists solely of
parseable records (no blank and no malformed lines), restoring yields exactly
`entry_count` records, the chosen id differs from the original (provably in
the collision branch; by freshness of the random id otherwise), and every
record that carries a session-identifier field carries the new id — never the
original. -/
theorem C2_roundtrip_amended (workspace : String) (f : SessionFileInfo) (dir : DirMap)
    (uuid : String) (hrec : ∀ l ∈ f.lines, l.isRecord = true) (huuid : uuid ≠ f.stem) :
    ∃ s, detect_session workspace true (some f) = some s ∧
      s.entry_count = f.lines.length ∧ s.session_id = f.stem ∧
      ∃ r, restore dir s.session_id uuid f.lines = .ok r ∧
        r.newId ≠ s.session_id ∧
        ∃ out, processLines r.newId f.lines = .ok out ∧
          out.length = s.entry_count ∧
          ∀ v ∈ out, ∀ j, v.sessionId? = some j → j = .str r.newId := by
  have hp : ∀ l ∈ f.lines, l.isMalformed = false := by
    intro l hl
    have := hrec l hl
    cases l <;> simp_all [LogLine.isRecord, LogLine.isMalformed]
  obtain ⟨c, hr⟩ := restore_ok dir f.stem uuid f.lines hp
  refine ⟨_, rfl, rfl, rfl, _, hr, ?_, ?_⟩
  · exact chooseNewId_ne dir f.stem uuid huuid
  · refine ⟨_, processLines_all_records _ f.lines hrec, ?_, ?_⟩
    · rw [List.length_map]
      exact length_filterMap_records f.lines hrec
    · intro v hv j hj
      obtain ⟨w, _, rfl⟩ := List.mem_map.mp hv
      exact sessionId_update _ w j hj

/-- C2 witness: a one-record log detected with id `o` restores into a fresh
directory with 1 record whose sessionId is the new id `u`. -/
theorem C2_witness :
    ∃ s, detect_session "/w" true
        (some { path := "/h/o.jsonl", stem := "o",
                lines := [LogLine.record (Json.obj [("sessionId", JVal.str "o")])] }) = some s ∧
      s.entry_count = 1 ∧ s.session_id = "o" ∧
      ∃ r, restore (fun _ => none) s.session_id "u"
          [LogLine.record (Json.obj [("sessionId", JVal.str "o")])] = .ok r ∧
        r.newId ≠ s.session_id ∧
        ∃ out, processLines r.newId
            [LogLine.record (Json.obj [("sessionId", JVal.str "o")])] = .ok out ∧
          out.length = s.entry_count ∧
          ∀ v ∈ out, ∀ j, v.sessionId? = some j → j = .str r.newId :=
  C2_roundtrip_amended "/w"
    { path := "/h/o.jsonl", stem := "o",
      lines := [LogLine.record (Json.obj [("sessionId", JVal.str "o")])] }
    (fun _ => none) "u" (by decide) (by decide)

/-! ### Monitor lemmas -/

theorem monitorLoop_connClosed (evs : List PEvent) :
    ∀ (c : Bool) (a : List Nat) (r : List PEvent),
      monitorLoop c a evs = .connClosed r → c = true ∨ ∃ e ∈ evs, e.isConnect = true := by
  induction evs with
  | nil =>
    intro c a r h
    exact absurd h (by simp [monitorLoop])
  | cons e rest ih =>
    intro c a r h
    cases e with
    | clientConnected n => exact .inr ⟨_, List.mem_cons_self _ _, rfl⟩
    | connectionClosed cid =>
      cases c with
      | true => exact .inl rfl
      | false =>
        rcases ih false a r h with h1 | ⟨e', he', hie⟩
        · exact absurd h1 (by simp)
        · exact .inr ⟨e', List.mem_cons_of_mem _ he', hie⟩
    | getRequestReceived n =>
      rcases ih c a r h with h1 | ⟨e', he', hie⟩
      · exact .inl h1
      · exact .inr ⟨e', List.mem_cons_of_mem _ he', hie⟩
    | transferStarted id sz =>
      rcases ih c (insertReq id a) r h with h1 | ⟨e', he', hie⟩
      · exact .inl h1
      · exact .inr ⟨e', List.mem_cons_of_mem _ he', hie⟩
    | transferProgress id off =>
      rcases ih c a r h with h1 | ⟨e', he', hie⟩
      · exact .inl h1
      · exact .inr ⟨e', List.mem_cons_of_mem _ he', hie⟩
    | transferCompleted id =>
      rcases ih c (removeReq id a) r h with h1 | ⟨e', he', hie⟩
      · exact .inl h1
      · exact .inr ⟨e', List.mem_cons_of_mem _ he', hie⟩
    | transferAborted id =>
      rcases ih c (removeReq id a) r h with h1 | ⟨e', he', hie⟩
      · exact .inl h1
      · exact .inr ⟨e', List.mem_cons_of_mem _ he', hie⟩
    | otherEvent t =>
      rcases ih c a r h with h1 | ⟨e', he', hie⟩
      · exact .inl h1
      · exact .inr ⟨e', List.mem_cons_of_mem _ he', hie⟩

theorem monitorLoop_no_close (evs : List PEvent) :
    ∀ (c : Bool) (a : List Nat), (∀ e ∈ evs, e.isClose = false) →
      monitorLoop c a evs = .queueClosed := by
  induction evs with
  | nil => intro c a _; rfl
  | cons e rest ih =>
    intro c a h
    have hrest := fun e' he' => h e' (List.mem_cons_of_mem _ he')
    cases e with
    | connectionClosed cid =>
      exact absurd (h _ (List.mem_cons_self _ _)) (by simp [PEvent.isClose])
    | clientConnected n => exact ih true a hrest
    | getRequestReceived n => exact ih c a hrest
    | transferStarted id sz => exact ih c _ hrest
    | transferProgress id off => exact ih c a hrest
    | transferCompleted id => exact ih c _ hrest
    | transferAborted id => exact ih c _ hrest
    | otherEvent t => exact ih c a hrest

theorem monitorLoop_no_connect (evs : List PEvent) :
    ∀ (a : List Nat), (∀ e ∈ evs, e.isConnect = false) →
      monitorLoop false a evs = .queueClosed := by
  induction evs with
  | nil => intro a _; rfl
  | cons e rest ih =>
    intro a h
    have hrest := fun e' he' => h e' (List.mem_cons_of_mem _ he')
    cases e with
    | clientConnected n =>
      exact absurd (h _ (List.mem_cons_self _ _)) (by simp [PEvent.isConnect])
    | connectionClosed cid => exact ih a hrest
    | getRequestReceived n => exact ih a hrest
    | transferStarted id sz => exact ih _ hrest
    | transferProgress id off => exact ih a hrest
    | transferCompleted id => exact ih _ hrest
    | transferAborted id => exact ih _ hrest
    | otherEvent t => exact ih a hrest

/-! ### C4: monitor termination conditions -/

/-- C4 (confirmed).  The monitor returns early only on a connection-closed
event after some connection-accepted event was observed; without any
connection-closed event the loop drains the whole queue from any state — in
particular a transfer-completed event never by itself terminates it; and when
the queue closes without any connection having been observed, the monitor
terminates successfully by queue closure. -/
theorem C4_monitor_termination (evs : List PEvent) :
    (∀ r, monitor_until_complete evs = .connClosed r → ∃ e ∈ evs, e.isConnect = true) ∧
    ((∀ e ∈ evs, e.isClose = false) → ∀ (c : Bool) (a : List Nat),
      monitorLoop c a evs = .queueClosed) ∧
    ((∀ e ∈ evs, e.isConnect = false) → monitor_until_complete evs = .queueClosed) := by
  refine ⟨?_, ?_, ?_⟩
  · intro r h
    rcases monitorLoop_connClosed evs false [] r h with h1 | h2
    · exact absurd h1 (by simp)
    · exact h2
  · intro h c a
    exact monitorLoop_no_close evs c a h
  · intro h
    exact monitorLoop_no_connect evs [] h

/-- C4 witness: an early return on connection-closed implies a prior
connection event; a completed transfer alone leaves the loop draining; a
queue that closes with no connection (even with a stray close event) ends in
successful queue closure. -/
theorem C4_witness :
    (∃ e ∈ [PEvent.clientConnected 1, PEvent.transferStarted 5 100,
            PEvent.transferCompleted 5, PEvent.connectionClosed 0], e.isConnect = true) ∧
    monitorLoop true [5] [PEvent.transferStarted 5 100, PEvent.transferCompleted 5] =
      .queueClosed ∧
    monitor_until_complete [PEvent.transferStarted 5 100, PEvent.transferCompleted 5,
                            PEvent.connectionClosed 0] = .queueClosed := by
  refine ⟨?_, ?_, ?_⟩
  · exact (C4_monitor_termination _).1 [] (by decide)
  · exact (C4_monitor_termination _).2.1 (by decide) true [5]
  · exact (C4_monitor_termination _).2.2 (by decide)

/-! ### C6: best-effort git interaction -/

/-- C6 counterexample.  With a `.git` directory present and the git binary
unavailable (every spawn fails), `get_git_state` propagates the error instead
of degrading to defaults — the detection run aborts; likewise `git init`
during restore. -/
theorem C6_cx_git_spawn_failure :
    (get_git_state true (fun _ => .error "git: command not found")).isOk = false ∧
    (initGitOnReceive false "main" (fun _ => .error "git: command not found")).isOk = false := by
  constructor <;> rfl

/-- C6 (corrected).  A workspace without a `.git` directory degrades to the
defaults without touching git at all; when the branch and status commands can
be spawned, every command-level failure degrades (branch falls back to
`main`, a failing remote lookup — even a spawn failure — becomes `none`) and
the state is returned; restore-side initialization succeeds whenever the
needed git commands spawn.  But a spawn failure of the branch or status
command, or of `git init`/`git checkout`, is propagated as an error. -/
theorem C6_git_best_effort_amended (run : GitRunner) (branch : String) :
    (get_git_state false run = .ok ("main", false, none)) ∧
    (∀ bOut sOut, run ["branch", "--show-current"] = .ok bOut →
      run ["status", "--porcelain"] = .ok sOut →
      get_git_state true run = .ok
        (if bOut.success then strTrim bOut.stdout else "main",
         !(sOut.stdout = ""),
         match run ["remote", "get-url", "origin"] with
         | .error _ => none
         | .ok o => if o.success then some (strTrim o.stdout) else none)) ∧
    (initGitOnReceive true branch run = .ok ()) ∧
    ((∀ args, (run args).isOk = true) → (initGitOnReceive false branch run).isOk = true) := by
  refine ⟨rfl, ?_, rfl, ?_⟩
  · intro bOut sOut hb hs
    simp only [get_git_state, Bool.not_true, Bool.false_eq_true, if_false, hb, hs]
  · intro h
    have hinit := h ["init"]
    simp only [initGitOnReceive, Bool.false_eq_true, if_false]
    cases hrun : run ["init"] with
    | error e => rw [hrun] at hinit; exact absurd hinit (by simp [Except.isOk, Except.toBool])
    | ok o =>
      by_cases hbm : branch ≠ "main" ∧ branch ≠ "master"
      · have hco := h ["checkout", "-b", branch]
        dsimp only
        rw [if_pos hbm]
        cases hrun2 : run ["checkout", "-b", branch] with
        | error e => rw [hrun2] at hco; exact absurd hco (by simp [Except.isOk, Except.toBool])
        | ok o2 => rfl
      · dsimp only
        rw [if_neg hbm]
        rfl

/-- C6 witness: a non-repository workspace yields the defaults even when git
is unavailable; with git available the detected state is returned with the
branch trimmed; restore-side initialization succeeds with git available. -/
theorem C6_witness :
    (get_git_state false (fun _ => .error "git: command not found") = .ok ("main", false, none)) ∧
    (get_git_state true (fun _ => .ok { success := true, stdout := "feature-x\n" }) =
      .ok ("feature-x", true, some "feature-x")) ∧
    ((initGitOnReceive false "feature-x" (fun _ => .ok { success := true, stdout := "" })).isOk
      = true) := by
  refine ⟨?_, ?_, ?_⟩
  · exact (C6_git_best_effort_amended (fun _ => .error "git: command not found") "main").1
  · exact (C6_git_best_effort_amended
      (fun _ => .ok { success := true, stdout := "feature-x\n" }) "main").2.1
      { success := true, stdout := "feature-x\n" }
      { success := true, stdout := "feature-x\n" } rfl rfl
  · exact (C6_git_best_effort_amended (fun _ => .ok { success := true, stdout := "" })
      "feature-x").2.2.2 (fun _ => rfl)

/-! ### C9: idempotent, non-raising cleanup -/

/-- C9 (confirmed).  The drop of a `TempDirGuard` is a total function (it can
only log, never raise): after `cancel_cleanup` the directory is not removed
at all; when the directory was already removed externally the drop does
nothing and emits no log; and on any removal failure the filesystem is left
unchanged with the failure at most logged. -/
theorem C9_cleanup_idempotent (g : TempDirGuard) (fs : FsDirs) :
    (g.should_cleanup = false → dropGuard g fs = (fs, [])) ∧
    (dropGuard (cancel_cleanup g) fs = (fs, [])) ∧
    (((fs : List (String × Bool)).all (fun d => !(d.1 = g.path))) = true →
      dropGuard g fs = (fs, [])) ∧
    (∀ e, removeDirAll fs g.path = .error e → (dropGuard g fs).1 = fs) := by
  refine ⟨?_, ?_, ?_, ?_⟩
  · intro h
    simp [dropGuard, h]
  · simp [dropGuard, cancel_cleanup]
  · intro h
    have hfind : (fs : List (String × Bool)).find? (fun d => d.1 = g.path) = none := by
      rw [List.find?_eq_none]
      intro x hx
      have := List.all_eq_true.mp h x hx
      simpa using this
    have hany : (fs : List (String × Bool)).any (fun d => d.1 = g.path) = false := by
      rw [List.any_eq_false]
      intro x hx
      have := List.all_eq_true.mp h x hx
      simpa using this
    cases hcc : g.should_cleanup
    · simp [dropGuard, hcc]
    · simp [dropGuard, hcc, removeDirAll, hfind, hany]
  · intro e he
    cases hcc : g.should_cleanup
    · simp [dropGuard, hcc]
    · simp only [dropGuard, hcc, Bool.not_true, Bool.false_eq_true, if_false, he]
      split <;> rfl

/-- C9 witness: dropping a guard whose directory is already gone does nothing
silently; a cancelled guard leaves an existing removable directory in
place. -/
theorem C9_witness :
    dropGuard { path := "/w/.agentbeam-ff00", should_cleanup := true } [] = ([], []) ∧
    dropGuard (cancel_cleanup { path := "/w/.agentbeam-ff00", should_cleanup := true })
        [("/w/.agentbeam-ff00", true)] = ([("/w/.agentbeam-ff00", true)], []) := by
  constructor
  · exact (C9_cleanup_idempotent
      { path := "/w/.agentbeam-ff00", should_cleanup := true } []).2.2.1 (by decide)
  · exact (C9_cleanup_idempotent
      { path := "/w/.agentbeam-ff00", should_cleanup := true } [("/w/.agentbeam-ff00", true)]).2.1

/-! ### C3: shape of the serialized manifest -/

/-- C3 (code bug).  The serialized manifest type `BeamMetadata` declared in
config.rs carries exactly the six base fields; it has no `claude_session` and
no `git_context` field, although `beam_session` in commands.rs constructs (and
`receive_session` reads) those two fields on this very type — the repository
contradicts itself, and serialization per the config.rs declaration omits the
optional fields the claim requires. -/
theorem C3_metadata_fields_bug (m : BeamMetadata) :
    ((serializeBeamMetadata m).map Prod.fst = beamMetadataFields) ∧
    "claude_session" ∉ beamMetadataFields ∧
    "git_context" ∉ beamMetadataFields :=
  ⟨rfl, by decide, by decide⟩

end AgentBeam
